import Mathlib

set_option maxRecDepth 100000

/-!
Shallow embedding of `train_multi_task.py` (Omnidata multi-task training script).

Python strings are embedded as `List Char`; Python scene-identifier methods
(`__contains__`, `split('-')[0]`, `startswith`) become the corresponding
`List Char` operations.  Tensors are embedded pixel-wise: images are functions
`Nat → Nat → ℚ`, encoded label images are per-pixel triples of `Int` channels,
and reductions are sums over explicit coordinate lists.  The curation loop of
`select_val_samples_for_datasets` is embedded as a step function on an explicit
state, iterated with the loop guard `total < 95`; the random draws of
`random.randint` become an arbitrary stream `draws : Nat → Nat` and the
dataset lookup `self.valset[idx]['positive']['building']` an arbitrary
`buildingOf : Nat → List Char`.
-/

/-- Modelled from the spec: the list `REPLICA_BUILDINGS` is imported from
`data.taskonomy_replica_gso_dataset`, which is not under src/.  The spec
describes it as the known Replica building list, whose scene names are
unhyphenated, do not start with `ai_`, and some of which start with the
prefix `frl`.  A representative such list. -/
def REPLICA_BUILDINGS : List (List Char) :=
  ["apartment_0".toList, "apartment_1".toList, "frl_apartment_0".toList,
   "frl_apartment_1".toList, "office_0".toList, "room_0".toList, "hotel_0".toList]

/-- `building.__contains__('-') and building.split('-')[0] in REPLICA_BUILDINGS`.
`split('-')[0]` is the segment before the first `'-'`, i.e. `takeWhile (· != '-')`. -/
def building_in_gso (b : List Char) : Bool :=
  b.contains '-' && REPLICA_BUILDINGS.contains (b.takeWhile (fun c => c != '-'))

/-- `building in REPLICA_BUILDINGS`. -/
def building_in_replica (b : List Char) : Bool :=
  REPLICA_BUILDINGS.contains b

/-- `building.startswith('ai_')`. -/
def building_in_hypersim (b : List Char) : Bool :=
  "ai_".toList.isPrefixOf b

/-- `building not in REPLICA_BUILDINGS and not building.startswith('ai_') and not building.__contains__('-')`. -/
def building_in_taskonomy (b : List Char) : Bool :=
  !REPLICA_BUILDINGS.contains b && !"ai_".toList.isPrefixOf b && !b.contains '-'

/-- State of the curation loop in `select_val_samples_for_datasets`:
the `frls` counter and the four per-dataset index buckets of `val_imgs`. -/
structure CurState where
  frls : Nat
  hypersim : List Nat
  replica : List Nat
  gso : List Nat
  taskonomy : List Nat
deriving DecidableEq

/-- The quantity tested by the `while` guard:
`len(val_imgs['replica']) + len(val_imgs['taskonomy']) + len(val_imgs['hypersim']) + len(val_imgs['gso'])`. -/
def total (s : CurState) : Nat :=
  s.replica.length + s.taskonomy.length + s.hypersim.length + s.gso.length

/-- One body execution of the curation loop, for a drawn index `idx` with
building name `buildingOf idx`: the `if/elif` chain of
`select_val_samples_for_datasets` (lines 346-359), including the `frl`
sub-quota `continue`. -/
def curStep (buildingOf : Nat → List Char) (idx : Nat) (s : CurState) : CurState :=
  let b := buildingOf idx
  if building_in_hypersim b ∧ s.hypersim.length < 40 then
    { s with hypersim := s.hypersim ++ [idx] }
  else if building_in_replica b ∧ s.replica.length < 25 then
    if "frl".toList.isPrefixOf b ∧ s.frls > 15 then s
    else if "frl".toList.isPrefixOf b then
      { s with frls := s.frls + 1, replica := s.replica ++ [idx] }
    else
      { s with replica := s.replica ++ [idx] }
  else if building_in_gso b ∧ s.gso.length < 20 then
    { s with gso := s.gso ++ [idx] }
  else if building_in_taskonomy b ∧ s.taskonomy.length < 30 then
    { s with taskonomy := s.taskonomy ++ [idx] }
  else s

/-- The state of the curation loop after `n` candidate draws: starting from
empty buckets, each draw executes the loop body only while the guard
`total < 95` still holds; once the guard fails the loop has exited and the
state is frozen. -/
def iterateCuration (buildingOf : Nat → List Char) (draws : Nat → Nat) : Nat → CurState
  | 0 => ⟨0, [], [], [], []⟩
  | n + 1 =>
    let s := iterateCuration buildingOf draws n
    if total s < 95 then curStep buildingOf (draws n) s else s

/-- Number of samples in the replica bucket whose building starts with `frl`. -/
def frlCount (buildingOf : Nat → List Char) (s : CurState) : Nat :=
  (s.replica.filter (fun i => "frl".toList.isPrefixOf (buildingOf i))).length

/-- A draw stream diverse enough to fill the accepting buckets: it cycles
through a Hypersim scene, a (non-frl) Replica scene, a GSO scene and a
Taskonomy scene. -/
def bOfDiverse : Nat → List Char := fun n =>
  if n % 4 = 0 then "ai_001_001".toList
  else if n % 4 = 1 then "office_0".toList
  else if n % 4 = 2 then "office_0-bottle".toList
  else "allensville".toList

/-- A draw stream from a starved pool: every drawn sample has a building name
accepted by none of the four dataset predicates. -/
def bOfStarve : Nat → List Char := fun _ => "foo-bar".toList

/-- A draw stream in which every sample comes from an `frl`-prefixed Replica scene. -/
def bOfFrl : Nat → List Char := fun _ => "frl_apartment_0".toList

/-- The values `f (k*i+di) (k*j+dj)` for `di, dj < k`: the pooling window of
`F.max_pool2d` (kernel size `k`, default stride `k`) at output position `(i, j)`. -/
def windowVals (k : Nat) (f : Nat → Nat → ℚ) (i j : Nat) : List ℚ :=
  (List.range k).flatMap (fun di => (List.range k).map (fun dj => f (k * i + di) (k * j + dj)))

/-- `F.max_pool2d(f, kernel_size=k)` at output position `(i, j)`. -/
def windowMax (k : Nat) (f : Nat → Nat → ℚ) (i j : Nat) : ℚ :=
  (windowVals k f i j).foldl max (f (k * i) (k * j))

/-- `F.interpolate(f, (S, S), mode='nearest')` for an input of spatial size
`hin × hin`: output pixel `(i, j)` reads input pixel `(⌊i*hin/S⌋, ⌊j*hin/S⌋)`. -/
def interpNearest (hin S : Nat) (f : Nat → Nat → ℚ) (i j : Nat) : ℚ :=
  f (i * hin / S) (j * hin / S)

/-- `make_valid_mask` (lines 250-272) on a single-channel `H × H` mask image:
invert (`1 - mask`), max-pool with kernel `k` (output size `H / k`),
nearest-neighbour resize back to `S × S` (`S = self.image_size`), and
threshold with `== 0`. -/
def make_valid_mask (S k H : Nat) (mask_float : Nat → Nat → ℚ) (i j : Nat) : Bool :=
  interpNearest (H / k) S (windowMax k (fun a b => 1 - mask_float a b)) i j == 0

/-- `semantic_gt = semantic[:,:,:,0]` followed by
`semantic_gt[(c0==255)*(c1==255)*(c2==255)] = 0` (line 287): channel 0,
zeroed at pure-white pixels. -/
def deriveLabel0 (c : Int × Int × Int) : Int :=
  if c.1 = 255 ∧ c.2.1 = 255 ∧ c.2.2 = 255 then 0 else c.1

/-- `semantic_gt[semantic_gt==-1] = 0` (line 288): the Hypersim undefined
class is zeroed. -/
def deriveLabel1 (l : Int) : Int :=
  if l = -1 then 0 else l

/-- `semantic_gt *= mask_valid_semantic` (line 291): multiplication by the
boolean validity mask. -/
def maskLabel (l : Int) (valid : Bool) : Int :=
  l * (if valid then 1 else 0)

/-- The per-pixel semantic label right before the shift `semantic_gt -= 1`:
white-zeroing, `-1`-zeroing, then validity masking (lines 284-291). -/
def preShiftLabel (c : Int × Int × Int) (valid : Bool) : Int :=
  maskLabel (deriveLabel1 (deriveLabel0 c)) valid

/-- The per-pixel semantic label fed to the cross-entropy loss, after
`semantic_gt -= 1` (line 292). -/
def finalLabel (c : Int × Int × Int) (valid : Bool) : Int :=
  preShiftLabel c valid - 1

/-- `torch.clamp(x, 0, 1)` (line 297). -/
def clamp01 (x : ℚ) : ℚ :=
  min (max x 0) 1

/-- Modelled from the spec: `masked_l1_loss` is imported from
`losses.masked_losses`, which is not under src/.  The masked L1 loss zeroes
the element-wise absolute error outside the mask and divides the sum by the
number of masked-in elements.  `elems` lists `(prediction, target, mask)`
per element. -/
def masked_l1_loss (elems : List (ℚ × ℚ × Bool)) : ℚ :=
  let kept := elems.filter (fun e => e.2.2)
  (kept.map (fun e => |e.1 - e.2.1|)).sum / (kept.length : ℚ)

/-- Modelled from the spec: `nn.CrossEntropyLoss(ignore_index=-1)` is a
library call.  It averages a per-pixel cross-entropy term over exactly the
pixels whose target is not the ignore index `-1`; the per-pixel term on
logits `α` is abstracted as `cePixel`.  `pixels` lists `(logits, target)`
per pixel. -/
def crossEntropyIgnore {α : Type} (cePixel : α → Int → ℚ) (pixels : List (α × Int)) : ℚ :=
  let kept := pixels.filter (fun p => p.2 != -1)
  (kept.map (fun p => cePixel p.1 p.2)).sum / (kept.length : ℚ)

/-- One element of `batch['positive']`, pixel-wise: the `S × S` images of one
sample.  `normal` is the ground-truth normal (3 channels), `semantic` the
encoded label image (3 integer channels), `mask_valid` the raw float mask
from the loader. -/
structure Sample where
  rgb : Nat → Nat → ℚ
  normal : Fin 3 → Nat → Nat → ℚ
  semantic : Nat → Nat → Int × Int × Int
  mask_valid : Nat → Nat → ℚ

/-- The model output `self(rgb)`: a dict with a `normal` head (3 channels)
and a `segment_semantic` head producing per-pixel logits of type `α`. -/
structure Preds (α : Type) where
  normal : Fin 3 → Nat → Nat → ℚ
  segment_semantic : Nat → Nat → α

/-- The record returned by `shared_step` (lines 324-328). -/
structure StepResults where
  normal_loss : ℚ
  semantic_loss : ℚ
  loss : ℚ

/-- All pixel coordinates of an `S × S` image. -/
def coords (S : Nat) : List (Nat × Nat) :=
  (List.range S).flatMap (fun i => (List.range S).map (fun j => (i, j)))

/-- `shared_step` (lines 275-329), for image size `S` and pool size `k`:
computes the validity mask with `make_valid_mask`, derives the shifted
semantic labels, runs the model on the rgb image, clamps the normal
predictions to `[0, 1]`, computes the masked L1 normal loss over all
(sample, channel, pixel) elements and the ignore-index cross-entropy
semantic loss over all (sample, pixel) positions, and combines them as
`10 * loss_normal + loss_semantic`. -/
def shared_step {α : Type} (S k : Nat) (model : (Nat → Nat → ℚ) → Preds α)
    (cePixel : α → Int → ℚ) (batch : List Sample) : StepResults :=
  let mask_valid := fun (s : Sample) => make_valid_mask S k S s.mask_valid
  let preds := fun (s : Sample) => model s.rgb
  let normal_preds := fun (s : Sample) (c : Fin 3) (i j : Nat) => clamp01 ((preds s).normal c i j)
  let loss_normal := masked_l1_loss (batch.flatMap (fun s =>
    (List.finRange 3).flatMap (fun c => (coords S).map (fun ij =>
      (normal_preds s c ij.1 ij.2, s.normal c ij.1 ij.2, mask_valid s ij.1 ij.2)))))
  let loss_semantic := crossEntropyIgnore cePixel (batch.flatMap (fun s =>
    (coords S).map (fun ij =>
      ((preds s).segment_semantic ij.1 ij.2,
        finalLabel (s.semantic ij.1 ij.2) (mask_valid s ij.1 ij.2)))))
  { normal_loss := loss_normal
    semantic_loss := loss_semantic
    loss := 10 * loss_normal + loss_semantic }

/-- The lists used by `setup_datasets` (lines 159-167): `train_datasets`
accumulates the datasets whose `use_*` flag is set; `val_datasets` is the
literal `['taskonomy', 'replica', 'hypersim']` with `'gso'` commented out. -/
def setup_train_datasets (use_taskonomy use_replica use_gso use_hypersim : Bool) : List String :=
  (if use_taskonomy then ["taskonomy"] else []) ++
  (if use_replica then ["replica"] else []) ++
  (if use_gso then ["gso"] else []) ++
  (if use_hypersim then ["hypersim"] else [])

/-- `self.val_datasets = ['taskonomy', 'replica', 'hypersim'] #, 'gso']` (line 167). -/
def val_datasets : List String :=
  ["taskonomy", "replica", "hypersim"]

/-- The validity-mask sum tested against zero in the claim: the number of
pixels whose computed valid mask is true. -/
def validMaskSum (pix : List ((Int × Int × Int) × Bool)) : Nat :=
  (pix.map (fun p => p.2)).count true

/-- The skip condition of `log_validation_example_images` (lines 387-393) on
the non-GSO path, per pixel `(channels, valid)`: reassigns
`mask_valid_semantic = semantic_gt != 0` after white/`-1` zeroing and
validity masking, and skips the example iff `mask_valid_semantic.sum() == 0`. -/
def visSkip (pix : List ((Int × Int × Int) × Bool)) : Bool :=
  ((pix.map (fun p => preShiftLabel p.1 p.2)).filter (fun l => l != 0)).length == 0

/-- A binary 4x4 mask, invalid only at pixel (3, 3). -/
def cexMask7 : Nat → Nat → ℚ := fun i j => if i = 3 ∧ j = 3 then 0 else 1

/-- A mask with a value outside [0, 1] at pixel (0, 1). -/
def cexMask7b : Nat → Nat → ℚ := fun i j => if i = 0 ∧ j = 1 then 2 else 1

theorem init_le_foldl_max (l : List ℚ) (a : ℚ) : a ≤ l.foldl max a := by
  induction l generalizing a with
  | nil => exact le_refl a
  | cons y ys ih => exact le_trans (le_max_left a y) (ih (max a y))

theorem mem_le_foldl_max (l : List ℚ) : ∀ (a x : ℚ), x ∈ l → x ≤ l.foldl max a := by
  induction l with
  | nil => intro a x hx; cases hx
  | cons y ys ih =>
    intro a x hx
    rcases List.mem_cons.mp hx with rfl | hm
    · exact le_trans (le_max_right a x) (init_le_foldl_max ys (max a x))
    · exact ih (max a y) x hm

theorem foldl_max_eq_init (l : List ℚ) (a : ℚ) (h : ∀ x ∈ l, x ≤ a) : l.foldl max a = a := by
  induction l with
  | nil => rfl
  | cons y ys ih =>
    have hy : y ≤ a := h y (List.mem_cons_self y ys)
    rw [List.foldl_cons, max_eq_left hy]
    exact ih (fun x hx => h x (List.mem_cons_of_mem y hx))

theorem mem_windowVals (k : Nat) (f : Nat → Nat → ℚ) (i j : Nat) (x : ℚ) :
    x ∈ windowVals k f i j ↔ ∃ di < k, ∃ dj < k, x = f (k * i + di) (k * j + dj) := by
  simp only [windowVals, List.mem_flatMap, List.mem_map, List.mem_range]
  constructor
  · rintro ⟨di, hdi, dj, hdj, rfl⟩
    exact ⟨di, hdi, dj, hdj, rfl⟩
  · rintro ⟨di, hdi, dj, hdj, rfl⟩
    exact ⟨di, hdi, dj, hdj, rfl⟩

theorem windowMax_eq_zero_iff (k : Nat) (f : Nat → Nat → ℚ) (i j : Nat) (hk : 0 < k)
    (hf : ∀ a b, 0 ≤ f a b) :
    windowMax k f i j = 0 ↔ ∀ di < k, ∀ dj < k, f (k * i + di) (k * j + dj) = 0 := by
  constructor
  · intro h0 di hdi dj hdj
    have hmem : f (k * i + di) (k * j + dj) ∈ windowVals k f i j :=
      (mem_windowVals k f i j _).mpr ⟨di, hdi, dj, hdj, rfl⟩
    have hle : f (k * i + di) (k * j + dj) ≤ 0 := by
      have := mem_le_foldl_max (windowVals k f i j) (f (k * i) (k * j)) _ hmem
      rwa [show (windowVals k f i j).foldl max (f (k * i) (k * j)) = windowMax k f i j from rfl, h0] at this
    exact le_antisymm hle (hf _ _)
  · intro hall
    have hinit : f (k * i) (k * j) = 0 := by
      have := hall 0 hk 0 hk
      simpa using this
    unfold windowMax
    rw [hinit]
    apply foldl_max_eq_init
    intro x hx
    rcases (mem_windowVals k f i j x).mp hx with ⟨di, hdi, dj, hdj, rfl⟩
    rw [hall di hdi dj hdj]

theorem idx_div (S k i : Nat) (hk : k ∣ S) (hS : 0 < S) : i * (S / k) / S = i / k := by
  obtain ⟨d, rfl⟩ := hk
  have hkpos : 0 < k := by
    rcases Nat.eq_zero_or_pos k with rfl | h
    · simp at hS
    · exact h
  have hdpos : 0 < d := by
    rcases Nat.eq_zero_or_pos d with rfl | h
    · simp at hS
    · exact h
  rw [Nat.mul_div_cancel_left d hkpos]
  exact Nat.mul_div_mul_right i k hdpos

theorem block_subset (k k' i di : Nat) (ht : k ∣ k') (hk' : 0 < k') (hdi : di < k) :
    ∃ di', di' < k' ∧ k' * (i / k') + di' = k * (i / k) + di := by
  obtain ⟨t, rfl⟩ := ht
  have htpos : 0 < t := by
    rcases Nat.eq_zero_or_pos t with rfl | h
    · simp at hk'
    · exact h
  have hdd : i / (k * t) = i / k / t := by rw [Nat.div_div_eq_div_mul]
  have hlow : k * t * (i / (k * t)) ≤ k * (i / k) := by
    rw [hdd]
    have h2 : t * (i / k / t) ≤ i / k := by
      rw [mul_comm]; exact Nat.div_mul_le_self _ _
    calc k * t * (i / k / t) = k * (t * (i / k / t)) := by ring
      _ ≤ k * (i / k) := Nat.mul_le_mul_left k h2
  have hhigh : k * (i / k) + k ≤ k * t * (i / (k * t)) + k * t := by
    rw [hdd]
    have h2 : i / k < t * (i / k / t) + t := by
      have ha := Nat.div_add_mod (i / k) t
      have hb := Nat.mod_lt (i / k) htpos
      omega
    calc k * (i / k) + k = k * (i / k + 1) := by ring
      _ ≤ k * (t * (i / k / t) + t) := Nat.mul_le_mul_left k (by omega)
      _ = k * t * (i / k / t) + k * t := by ring
  exact ⟨k * (i / k) + di - k * t * (i / (k * t)), by omega, by omega⟩

theorem valid_iff (S k : Nat) (m : Nat → Nat → ℚ) (i j : Nat)
    (hk : 0 < k) (hkS : k ∣ S) (hS : 0 < S) (hm1 : ∀ a b, m a b ≤ 1) :
    make_valid_mask S k S m i j = true ↔
      ∀ di < k, ∀ dj < k, m (k * (i / k) + di) (k * (j / k) + dj) = 1 := by
  unfold make_valid_mask interpNearest
  rw [idx_div S k i hkS hS, idx_div S k j hkS hS, beq_iff_eq]
  rw [windowMax_eq_zero_iff k _ _ _ hk (fun a b => by
    have := hm1 a b; linarith)]
  constructor
  · intro h di hdi dj hdj
    have := h di hdi dj hdj
    linarith
  · intro h di hdi dj hdj
    have := h di hdi dj hdj
    linarith

theorem valid_mono (S k k' : Nat) (m : Nat → Nat → ℚ) (i j : Nat)
    (hk : 0 < k) (hkk' : k ∣ k') (hk'S : k' ∣ S) (hS : 0 < S) (hm1 : ∀ a b, m a b ≤ 1)
    (h : make_valid_mask S k' S m i j = true) : make_valid_mask S k S m i j = true := by
  have hk' : 0 < k' := by
    rcases Nat.eq_zero_or_pos k' with rfl | h'
    · obtain ⟨c, hc⟩ := hk'S; omega
    · exact h'
  have hkS : k ∣ S := dvd_trans hkk' hk'S
  rw [valid_iff S k' m i j hk' hk'S hS hm1] at h
  rw [valid_iff S k m i j hk hkS hS hm1]
  intro di hdi dj hdj
  obtain ⟨di', hdi', hei⟩ := block_subset k k' i di hkk' hk' hdi
  obtain ⟨dj', hdj', hej⟩ := block_subset k k' j dj hkk' hk' hdj
  rw [← hei, ← hej]
  exact h di' hdi' dj' hdj'

theorem valid_noop (S : Nat) (m : Nat → Nat → ℚ) (i j : Nat) (hS : 0 < S) :
    make_valid_mask S 1 S m i j = decide (m i j = 1) := by
  have key : make_valid_mask S 1 S m i j = (1 - m i j == 0) := by
    unfold make_valid_mask interpNearest windowMax windowVals
    rw [Nat.div_one, Nat.mul_div_cancel _ hS, Nat.mul_div_cancel _ hS]
    simp [List.range_succ]
  rw [key]
  by_cases h : m i j = 1
  · rw [h]
    simp
  · rw [decide_eq_false h, beq_eq_false_iff_ne]
    intro hc
    exact h (by linarith)

/-- Every Replica building name in the modelled list is unhyphenated. -/
theorem replica_cases (b : List Char) (hb : REPLICA_BUILDINGS.contains b = true) :
    b = "apartment_0".toList ∨ b = "apartment_1".toList ∨ b = "frl_apartment_0".toList ∨
    b = "frl_apartment_1".toList ∨ b = "office_0".toList ∨ b = "room_0".toList ∨
    b = "hotel_0".toList := by
  simpa [REPLICA_BUILDINGS, List.contains] using hb

theorem replica_no_hyphen (b : List Char) (hb : REPLICA_BUILDINGS.contains b = true) :
    b.contains '-' = false := by
  rcases replica_cases b hb with rfl | rfl | rfl | rfl | rfl | rfl | rfl <;> decide

theorem replica_no_ai (b : List Char) (hb : REPLICA_BUILDINGS.contains b = true) :
    "ai_".toList.isPrefixOf b = false := by
  rcases replica_cases b hb with rfl | rfl | rfl | rfl | rfl | rfl | rfl <;> decide

/-- No Replica building starts with the three characters `ai_`, whatever follows. -/
theorem ai_prefix_not_replica (t : List Char) :
    REPLICA_BUILDINGS.contains ('a' :: 'i' :: '_' :: t) = false := by
  rfl

/-- A building starting with `ai_` keeps that prefix in its pre-hyphen segment. -/
theorem takeWhile_ai (b : List Char) (hb : "ai_".toList.isPrefixOf b = true) :
    ∃ t, b.takeWhile (fun c => c != '-') = 'a' :: 'i' :: '_' :: t := by
  have hpre : "ai_".toList <+: b := by
    rw [← List.isPrefixOf_iff_prefix]
    exact hb
  obtain ⟨t, ht⟩ := hpre
  refine ⟨t.takeWhile (fun c => c != '-'), ?_⟩
  rw [← ht]
  rfl

/-- Claim C3, counterexample: the four dataset predicates are not exhaustive.
The identifier `foo-bar` is hyphenated (so not Taskonomy), its pre-hyphen
segment `foo` is not a Replica building (so not GSO), it is not itself a
Replica building and does not start with `ai_`: all four predicates are false. -/
theorem C3_counterexample :
    building_in_gso "foo-bar".toList = false ∧
    building_in_replica "foo-bar".toList = false ∧
    building_in_hypersim "foo-bar".toList = false ∧
    building_in_taskonomy "foo-bar".toList = false := by
  decide

/-- Claim C3, amended: the four dataset-classification predicates are mutually
exclusive — every scene-identifier string satisfies at most one of them — but
they are not exhaustive. -/
theorem C3_mutually_exclusive (b : List Char) :
    (building_in_gso b && building_in_replica b) = false ∧
    (building_in_gso b && building_in_hypersim b) = false ∧
    (building_in_gso b && building_in_taskonomy b) = false ∧
    (building_in_replica b && building_in_hypersim b) = false ∧
    (building_in_replica b && building_in_taskonomy b) = false ∧
    (building_in_hypersim b && building_in_taskonomy b) = false := by
  refine ⟨?_, ?_, ?_, ?_, ?_, ?_⟩ <;> rw [Bool.eq_false_iff, Ne, Bool.and_eq_true]
  · rintro ⟨hg, hr⟩
    simp only [building_in_gso, Bool.and_eq_true] at hg
    rw [building_in_replica] at hr
    rw [replica_no_hyphen b hr] at hg
    exact absurd hg.1 (by simp)
  · rintro ⟨hg, hh⟩
    simp only [building_in_gso, Bool.and_eq_true] at hg
    rw [building_in_hypersim] at hh
    obtain ⟨t, ht⟩ := takeWhile_ai b hh
    rw [ht, ai_prefix_not_replica] at hg
    exact absurd hg.2 (by simp)
  · rintro ⟨hg, ht⟩
    simp only [building_in_gso, Bool.and_eq_true] at hg
    simp only [building_in_taskonomy, Bool.and_eq_true, Bool.not_eq_true'] at ht
    rw [ht.2] at hg
    exact absurd hg.1 (by simp)
  · rintro ⟨hr, hh⟩
    rw [building_in_replica] at hr
    rw [building_in_hypersim, replica_no_ai b hr] at hh
    exact absurd hh (by simp)
  · rintro ⟨hr, ht⟩
    rw [building_in_replica] at hr
    simp only [building_in_taskonomy, Bool.and_eq_true, Bool.not_eq_true'] at ht
    rw [hr] at ht
    exact absurd ht.1.1 (by simp)
  · rintro ⟨hh, ht⟩
    rw [building_in_hypersim] at hh
    simp only [building_in_taskonomy, Bool.and_eq_true, Bool.not_eq_true'] at ht
    rw [hh] at ht
    exact absurd ht.1.2 (by simp)

theorem curStep_quotas (bOf : Nat → List Char) (idx : Nat) (s : CurState)
    (h1 : s.hypersim.length ≤ 40) (h2 : s.replica.length ≤ 25)
    (h3 : s.gso.length ≤ 20) (h4 : s.taskonomy.length ≤ 30) :
    (curStep bOf idx s).hypersim.length ≤ 40 ∧ (curStep bOf idx s).replica.length ≤ 25 ∧
    (curStep bOf idx s).gso.length ≤ 20 ∧ (curStep bOf idx s).taskonomy.length ≤ 30 := by
  unfold curStep
  dsimp only
  split_ifs <;> simp_all [List.length_append] <;> omega

theorem curStep_total (bOf : Nat → List Char) (idx : Nat) (s : CurState) :
    total (curStep bOf idx s) ≤ total s + 1 := by
  unfold curStep total
  dsimp only
  split_ifs <;> simp_all [List.length_append] <;> omega

theorem iterateCuration_frozen (bOf : Nat → List Char) (draws : Nat → Nat) (n : Nat)
    (h : 95 ≤ total (iterateCuration bOf draws n)) :
    iterateCuration bOf draws (n + 1) = iterateCuration bOf draws n := by
  show (if total (iterateCuration bOf draws n) < 95
      then curStep bOf (draws n) (iterateCuration bOf draws n)
      else iterateCuration bOf draws n) = iterateCuration bOf draws n
  rw [if_neg (by omega)]

theorem iterateCuration_total_le (bOf : Nat → List Char) (draws : Nat → Nat) (n : Nat) :
    total (iterateCuration bOf draws n) ≤ 95 := by
  induction n with
  | zero => simp [iterateCuration, total]
  | succ n ih =>
    show total (if total (iterateCuration bOf draws n) < 95
        then curStep bOf (draws n) (iterateCuration bOf draws n)
        else iterateCuration bOf draws n) ≤ 95
    split_ifs with hlt
    · have := curStep_total bOf (draws n) (iterateCuration bOf draws n)
      omega
    · exact ih

theorem curStep_frl (bOf : Nat → List Char) (idx : Nat) (s : CurState)
    (h1 : s.frls = frlCount bOf s) (h2 : s.frls ≤ 16) :
    (curStep bOf idx s).frls = frlCount bOf (curStep bOf idx s) ∧ (curStep bOf idx s).frls ≤ 16 := by
  unfold curStep
  dsimp only
  split_ifs <;> simp_all [frlCount, List.filter_append]

theorem frl_invariant (bOf : Nat → List Char) (draws : Nat → Nat) (n : Nat) :
    (iterateCuration bOf draws n).frls = frlCount bOf (iterateCuration bOf draws n) ∧
    (iterateCuration bOf draws n).frls ≤ 16 := by
  induction n with
  | zero => simp [iterateCuration, frlCount]
  | succ n ih =>
    have hunf : iterateCuration bOf draws (n + 1) =
        if total (iterateCuration bOf draws n) < 95
        then curStep bOf (draws n) (iterateCuration bOf draws n)
        else iterateCuration bOf draws n := rfl
    rw [hunf]
    split_ifs with hlt
    · exact curStep_frl bOf (draws n) _ ih.1 ih.2
    · exact ih

theorem iterateCuration_quotas (bOf : Nat → List Char) (draws : Nat → Nat) (n : Nat) :
    (iterateCuration bOf draws n).hypersim.length ≤ 40 ∧
    (iterateCuration bOf draws n).replica.length ≤ 25 ∧
    (iterateCuration bOf draws n).gso.length ≤ 20 ∧
    (iterateCuration bOf draws n).taskonomy.length ≤ 30 := by
  induction n with
  | zero => simp [iterateCuration]
  | succ n ih =>
    have hunf : iterateCuration bOf draws (n + 1) =
        if total (iterateCuration bOf draws n) < 95
        then curStep bOf (draws n) (iterateCuration bOf draws n)
        else iterateCuration bOf draws n := rfl
    rw [hunf]
    split_ifs with hlt
    · exact curStep_quotas bOf (draws n) _ ih.1 ih.2.1 ih.2.2.1 ih.2.2.2
    · exact ih

theorem curStep_starve (idx : Nat) (s : CurState) : curStep bOfStarve idx s = s := by
  unfold curStep bOfStarve
  dsimp only
  rw [if_neg (by rintro ⟨hc, -⟩; exact absurd hc (by decide))]
  rw [if_neg (by rintro ⟨hc, -⟩; exact absurd hc (by decide))]
  rw [if_neg (by rintro ⟨hc, -⟩; exact absurd hc (by decide))]
  rw [if_neg (by rintro ⟨hc, -⟩; exact absurd hc (by decide))]

theorem iterateCuration_starve (n : Nat) :
    iterateCuration bOfStarve (fun k => k) n = ⟨0, [], [], [], []⟩ := by
  induction n with
  | zero => rfl
  | succ n ih =>
    have hunf : iterateCuration bOfStarve (fun k => k) (n + 1) =
        if total (iterateCuration bOfStarve (fun k => k) n) < 95
        then curStep bOfStarve n (iterateCuration bOfStarve (fun k => k) n)
        else iterateCuration bOfStarve (fun k => k) n := rfl
    rw [hunf, ih]
    split_ifs with hlt
    · exact curStep_starve n _
    · rfl

/-- Claim C4, counterexample: with a draw stream diverse enough to keep
filling buckets, the curation loop exits (the state freezes) as soon as the
total reaches the fixed target 95 — before the sum of the four quotas
(40 + 25 + 20 + 30 = 115) is reached; here the taskonomy bucket stops short
of its quota of 30, so the loop does not terminate "once the sum of quotas
is reached". -/
theorem C4_counterexample :
    total (iterateCuration bOfDiverse (fun n => n) 100) = 95 ∧
    iterateCuration bOfDiverse (fun n => n) 101 = iterateCuration bOfDiverse (fun n => n) 100 ∧
    (iterateCuration bOfDiverse (fun n => n) 100).taskonomy.length < 30 := by
  refine ⟨by decide, by decide, by decide⟩

/-- Claim C4, amended: throughout `select_val_samples_for_datasets`, no dataset
bucket ever exceeds its stated quota (hypersim 40, replica 25, gso 20,
taskonomy 30), and the loop terminates once the total number of accepted
samples reaches the fixed target 95 (not the sum of the quotas, which is 115):
whenever the total is at least 95 the loop guard fails and the state never
changes again. -/
theorem C4_quota_invariant (bOf : Nat → List Char) (draws : Nat → Nat) (n : Nat) :
    (iterateCuration bOf draws n).hypersim.length ≤ 40 ∧
    (iterateCuration bOf draws n).replica.length ≤ 25 ∧
    (iterateCuration bOf draws n).gso.length ≤ 20 ∧
    (iterateCuration bOf draws n).taskonomy.length ≤ 30 ∧
    (95 ≤ total (iterateCuration bOf draws n) →
      iterateCuration bOf draws (n + 1) = iterateCuration bOf draws n) :=
  ⟨(iterateCuration_quotas bOf draws n).1, (iterateCuration_quotas bOf draws n).2.1,
    (iterateCuration_quotas bOf draws n).2.2.1, (iterateCuration_quotas bOf draws n).2.2.2,
    fun h => iterateCuration_frozen bOf draws n h⟩

/-- Claim C4, witness: at the diverse stream the guard has failed after 100
draws and the quota bounds hold there. -/
theorem C4_witness :
    95 ≤ total (iterateCuration bOfDiverse (fun n => n) 100) ∧
    (iterateCuration bOfDiverse (fun n => n) 100).hypersim.length ≤ 40 ∧
    iterateCuration bOfDiverse (fun n => n) 101 = iterateCuration bOfDiverse (fun n => n) 100 :=
  ⟨by decide, (C4_quota_invariant bOfDiverse (fun n => n) 100).1,
    (C4_quota_invariant bOfDiverse (fun n => n) 100).2.2.2.2 (by decide)⟩

/-- Claim C5: the curation loop's guard is `total < 95` and every loop body
execution adds at most one sample, so the total never exceeds 95 and the loop
terminates exactly when the total reaches the fixed target 95, at which point
the state is frozen forever.  For a pool in which fewer than 95 samples are
acceptable — here a pool whose every drawable sample is rejected by all four
dataset predicates — the guard stays true at every iteration and the loop in
the source never terminates. -/
theorem C5_termination :
    (∀ (bOf : Nat → List Char) (draws : Nat → Nat) (n : Nat),
      total (iterateCuration bOf draws n) ≤ 95 ∧
      (95 ≤ total (iterateCuration bOf draws n) →
        iterateCuration bOf draws (n + 1) = iterateCuration bOf draws n)) ∧
    (∀ n : Nat, total (iterateCuration bOfStarve (fun k => k) n) < 95) := by
  constructor
  · intro bOf draws n
    exact ⟨iterateCuration_total_le bOf draws n, fun h => iterateCuration_frozen bOf draws n h⟩
  · intro n
    rw [iterateCuration_starve n]
    decide

/-- Claim C5, witness: the termination clause instantiated at the diverse
stream after 100 draws, where the total has reached 95. -/
theorem C5_witness :
    iterateCuration bOfDiverse (fun n => n) 101 = iterateCuration bOfDiverse (fun n => n) 100 :=
  (C5_termination.1 bOfDiverse (fun n => n) 100).2 (by decide)

/-- Claim C6, counterexample: with a pool that keeps drawing `frl`-prefixed
Replica scenes, the replica bucket accepts 16 such samples — the guard
`frls > 15` lets the sixteenth through — refuting the stated bound of 15. -/
theorem C6_counterexample :
    frlCount bOfFrl (iterateCuration bOfFrl (fun n => n) 20) = 16 := by
  decide

/-- Claim C6, amended: among the samples accepted into the replica bucket by
`select_val_samples_for_datasets`, at most 16 (not 15) have a building
identifier starting with `frl`, in every execution of the curation loop. -/
theorem C6_frl_bound (bOf : Nat → List Char) (draws : Nat → Nat) (n : Nat) :
    frlCount bOf (iterateCuration bOf draws n) ≤ 16 := by
  have h := frl_invariant bOf draws n
  omega

/-- Claim C1: for every batch, `shared_step` clamps the predicted normals to
[0, 1], computes the masked L1 normal loss and the ignore-index cross-entropy
semantic loss, and returns a record whose total loss equals
`10 * normal_loss + semantic_loss`, with the two constituent losses also
returned. -/
theorem C1_shared_step_structure (α : Type) (S k : Nat)
    (model : (Nat → Nat → ℚ) → Preds α) (cePixel : α → Int → ℚ) (batch : List Sample) :
    (shared_step S k model cePixel batch).loss =
      10 * (shared_step S k model cePixel batch).normal_loss +
        (shared_step S k model cePixel batch).semantic_loss ∧
    (shared_step S k model cePixel batch).normal_loss =
      masked_l1_loss (batch.flatMap (fun s =>
        (List.finRange 3).flatMap (fun c => (coords S).map (fun ij =>
          (clamp01 ((model s.rgb).normal c ij.1 ij.2), s.normal c ij.1 ij.2,
            make_valid_mask S k S s.mask_valid ij.1 ij.2))))) ∧
    (shared_step S k model cePixel batch).semantic_loss =
      crossEntropyIgnore cePixel (batch.flatMap (fun s =>
        (coords S).map (fun ij =>
          ((model s.rgb).segment_semantic ij.1 ij.2,
            finalLabel (s.semantic ij.1 ij.2) (make_valid_mask S k S s.mask_valid ij.1 ij.2))))) ∧
    (∀ x : ℚ, 0 ≤ clamp01 x ∧ clamp01 x ≤ 1) :=
  ⟨rfl, rfl, rfl, fun x =>
    ⟨le_min (le_max_right x 0) zero_le_one, min_le_right (max x 0) 1⟩⟩

/-- Claim C2: for a pixel whose three encoded channels all equal 255, the
semantic label derived by `shared_step` is 0 before the shift by one, equals
-1 after the shift, and is therefore dropped by the ignore-index
cross-entropy loss: the pixel contributes nothing to the loss. -/
theorem C2_white_pixel (α : Type) (cePixel : α → Int → ℚ) (lg : α)
    (rest : List (α × Int)) (c : Int × Int × Int) (v : Bool)
    (h : c = (255, 255, 255)) :
    preShiftLabel c v = 0 ∧ finalLabel c v = -1 ∧
    crossEntropyIgnore cePixel ((lg, finalLabel c v) :: rest) =
      crossEntropyIgnore cePixel rest := by
  subst h
  have h0 : preShiftLabel (255, 255, 255) v = 0 := by
    simp [preShiftLabel, deriveLabel0, deriveLabel1, maskLabel]
  have h1 : finalLabel (255, 255, 255) v = -1 := by
    rw [finalLabel, h0]
    rfl
  refine ⟨h0, h1, ?_⟩
  rw [h1]
  simp [crossEntropyIgnore]

/-- Claim C2, witness: at a concrete white pixel with a valid mask. -/
theorem C2_witness :
    preShiftLabel (255, 255, 255) true = 0 ∧ finalLabel (255, 255, 255) true = -1 ∧
    crossEntropyIgnore (fun (_ : Unit) (_ : Int) => (0 : ℚ))
        (((), finalLabel (255, 255, 255) true) :: []) =
      crossEntropyIgnore (fun (_ : Unit) (_ : Int) => (0 : ℚ)) [] :=
  C2_white_pixel Unit (fun _ _ => 0) () [] (255, 255, 255) true rfl

/-- Claim C10: in `shared_step`, for every pixel whose computed validity mask
is false, the final semantic label after mask-and-shift equals exactly -1
(given the raw channel-0 label is non-negative), so invalid pixels never
contribute to the semantic cross-entropy loss. -/
theorem C10_invalid_pixel (α : Type) (cePixel : α → Int → ℚ) (lg : α)
    (rest : List (α × Int)) (c : Int × Int × Int) (h : 0 ≤ c.1) :
    finalLabel c false = -1 ∧
    crossEntropyIgnore cePixel ((lg, finalLabel c false) :: rest) =
      crossEntropyIgnore cePixel rest := by
  have h1 : finalLabel c false = -1 := by
    simp [finalLabel, preShiftLabel, maskLabel]
  refine ⟨h1, ?_⟩
  rw [h1]
  simp [crossEntropyIgnore]

/-- Claim C10, witness: at a concrete invalid pixel with label 7. -/
theorem C10_witness :
    (0 : Int) ≤ 7 ∧ finalLabel (7, 0, 0) false = -1 :=
  ⟨by decide, (C10_invalid_pixel Unit (fun _ _ => 0) () [] (7, 0, 0) (by decide)).1⟩

/-- Claim C8, counterexample: an example whose single pixel is pure white but
valid is skipped by `log_validation_example_images` even though its
valid-mask sum is 1, not 0 — the skip tests the reassigned nonzero-label
mask, not the valid mask. -/
theorem C8_counterexample :
    visSkip [((255, 255, 255), true)] = true ∧
    validMaskSum [((255, 255, 255), true)] = 1 := by
  decide

/-- Claim C8, amended: `log_validation_example_images` skips a validation
example exactly when every pixel's masked label (after white and -1 zeroing and
validity masking) is 0 — equivalently, when the sum of the reassigned
`mask_valid_semantic = semantic_gt != 0` is zero.  A zero valid-mask sum
implies the skip, but not conversely. -/
theorem C8_skip_characterization (pix : List ((Int × Int × Int) × Bool)) :
    (visSkip pix = true ↔ ∀ p ∈ pix, preShiftLabel p.1 p.2 = 0) ∧
    (validMaskSum pix = 0 → visSkip pix = true) := by
  have hiff : visSkip pix = true ↔ ∀ p ∈ pix, preShiftLabel p.1 p.2 = 0 := by
    unfold visSkip
    rw [beq_iff_eq, List.length_eq_zero, List.filter_eq_nil_iff]
    constructor
    · intro h p hp
      have := h (preShiftLabel p.1 p.2) (List.mem_map.mpr ⟨p, hp, rfl⟩)
      simpa using this
    · intro h l hl
      rcases List.mem_map.mp hl with ⟨p, hp, rfl⟩
      simpa using h p hp
  refine ⟨hiff, fun hsum => hiff.mpr ?_⟩
  have hnotin : true ∉ pix.map (fun p => p.2) := by
    rw [← List.count_eq_zero]
    exact hsum
  intro p hp
  have hpv : p.2 = false := by
    cases hv : p.2
    · rfl
    · exact absurd (List.mem_map.mpr ⟨p, hp, hv⟩) hnotin
  simp [preShiftLabel, maskLabel, hpv]

/-- Claim C8, witness: an all-invalid single-pixel example has valid-mask sum
zero and is skipped. -/
theorem C8_witness :
    validMaskSum [((7, 0, 0), false)] = 0 ∧ visSkip [((7, 0, 0), false)] = true :=
  ⟨by decide, (C8_skip_characterization [((7, 0, 0), false)]).2 (by decide)⟩

/-- Claim C9, counterexample: the validation dataset list does not include
`gso` — it is commented out in the source — so curated GSO samples are never
visited by the visualization loop. -/
theorem C9_counterexample : val_datasets.contains "gso" = false := by
  decide

/-- Claim C9, amended: the validation dataset list is exactly
`[taskonomy, replica, hypersim]`; it excludes `gso` (commented out at line
167), and with `use_gso = false` the training list excludes it as well, so
the visualization loop, which iterates over `val_datasets`, never visits the
curated GSO bucket. -/
theorem C9_val_datasets :
    val_datasets = ["taskonomy", "replica", "hypersim"] ∧
    val_datasets.contains "gso" = false ∧
    (setup_train_datasets true true false true).contains "gso" = false := by
  refine ⟨rfl, by decide, by decide⟩

/-- Claim C7, counterexample: enlarging `max_pool_size` can grow the valid
set.  First pair: on a binary 4x4 mask invalid only at pixel (3, 3), pool
size 1 marks (3, 3) invalid but pool size 3 marks it valid, because
`F.max_pool2d` with kernel 3 floor-truncates the 4x4 image to one 3x3 window
that never sees pixel (3, 3).  Second pair: on a 2x2 mask holding a value
outside [0, 1], pool sizes 1 and 2 both divide the image size, yet pixel
(0, 1) flips from invalid to valid, because a negative inverted value is
absorbed by the window maximum. -/
theorem C7_counterexample :
    (make_valid_mask 4 1 4 cexMask7 3 3 = false ∧ make_valid_mask 4 3 4 cexMask7 3 3 = true) ∧
    (make_valid_mask 2 1 2 cexMask7b 0 1 = false ∧ make_valid_mask 2 2 2 cexMask7b 0 1 = true) := by
  refine ⟨⟨?_, ?_⟩, ?_, ?_⟩ <;>
    norm_num [make_valid_mask, interpNearest, windowMax, windowVals, cexMask7, cexMask7b,
      List.range_succ]

/-- Claim C7, amended: for masks with values in [0, 1] and pool sizes that
divide the image size (the smaller dividing the larger), enlarging
`max_pool_size` can only shrink or preserve the set of pixels marked valid;
and with pool size 1 the dilation is a no-op — a pixel is valid exactly when
its mask value is 1 — so the construction is idempotent: re-applying it to
the (0/1-valued) mask it produces returns the same valid set. -/
theorem C7_mask_monotone (S k k' : Nat) (m : Nat → Nat → ℚ) (i j : Nat)
    (hk : 0 < k) (hkk' : k ∣ k') (hk'S : k' ∣ S) (hS : 0 < S)
    (hm : ∀ a b, 0 ≤ m a b ∧ m a b ≤ 1) :
    (make_valid_mask S k' S m i j = true → make_valid_mask S k S m i j = true) ∧
    make_valid_mask S 1 S m i j = decide (m i j = 1) ∧
    make_valid_mask S 1 S (fun a b => if make_valid_mask S 1 S m a b = true then 1 else 0) i j =
      make_valid_mask S 1 S m i j := by
  refine ⟨fun h => valid_mono S k k' m i j hk hkk' hk'S hS (fun a b => (hm a b).2) h,
    valid_noop S m i j hS, ?_⟩
  rw [valid_noop S _ i j hS]
  cases hB : make_valid_mask S 1 S m i j
  · simp [hB]
  · simp [hB]

/-- Claim C7, witness: on the all-ones mask at image size 4, pool size 2
leaves pixel (0, 0) valid, hence so does pool size 1, which is the no-op. -/
theorem C7_witness :
    make_valid_mask 4 1 4 (fun _ _ => (1 : ℚ)) 0 0 = true :=
  (C7_mask_monotone 4 1 2 (fun _ _ => (1 : ℚ)) 0 0 (by norm_num) ⟨2, rfl⟩ ⟨2, rfl⟩
    (by norm_num) (fun a b => by norm_num)).1
    (by norm_num [make_valid_mask, interpNearest, windowMax, windowVals, List.range_succ])
